import Mathlib

/-!
Shallow embedding of the query-guard core of the `mcp-server-test` repository:
the read-only SQL classifier and validator (`query-validator.js`), the query
sanitizer, the input validator of `mcp-psql/providers/query-provider.js`, the
database error translation (`error-handler.js`), the retry logic of
`db-connector.js`, and the execution pipeline of `mcp-psql/models/query-model.js`
together with the query provider of the mcp-psql service.

Strings are modelled as `List Char`.  JavaScript `null` / non-string inputs are
modelled as `Option` `none`.  The character classes `\w` and `\s` of the
JavaScript regular expressions are modelled over their ASCII core
(`[A-Za-z0-9_]` and the ASCII whitespace characters); `toLowerCase` is modelled
by ASCII lowering (`Char.toLower`), which agrees with JavaScript on every
character the validator's patterns can match.
-/

namespace McpSql

/-- ASCII word character, the `\w` class of the JavaScript regexes. -/
def isWordChar (c : Char) : Bool :=
  decide ((97 ≤ c.toNat ∧ c.toNat ≤ 122) ∨ (65 ≤ c.toNat ∧ c.toNat ≤ 90) ∨
    (48 ≤ c.toNat ∧ c.toNat ≤ 57) ∨ c.toNat = 95)

/-- ASCII whitespace, the core of the `\s` class of the JavaScript regexes
(space, tab, line feed, carriage return, vertical tab, form feed). -/
def isSpaceChar (c : Char) : Bool :=
  decide (c.toNat = 32 ∨ c.toNat = 9 ∨ c.toNat = 10 ∨ c.toNat = 13 ∨
    c.toNat = 11 ∨ c.toNat = 12)

/-- ASCII lowering of one character, the effect of JavaScript `toLowerCase`
on the characters relevant to the validator. -/
def jsToLower (s : List Char) : List Char :=
  s.map Char.toLower

/-- JavaScript `String.prototype.trim`: drop whitespace from both ends. -/
def jsTrim (s : List Char) : List Char :=
  (s.dropWhile isSpaceChar).rdropWhile isSpaceChar

/-- A `\b` immediately before a word character holds exactly when the
preceding character (`none` at the start of the string) is not a word
character. -/
def boundaryBefore : Option Char → Bool
  | none => true
  | some c => !(isWordChar c)

/-- A `\b` immediately after a word character holds exactly when the rest of
the string is empty or starts with a non-word character. -/
def bAfter : List Char → Bool
  | [] => true
  | c :: _ => !(isWordChar c)

/-- Search for an unanchored regex match: `core` receives the suffix starting
at the candidate position, guarded by a leading `\b` (via the previous
character). -/
def scanWB (core : List Char → Bool) : Option Char → List Char → Bool
  | prev, [] => boundaryBefore prev && core []
  | prev, c :: rest =>
    (boundaryBefore prev && core (c :: rest)) || scanWB core (some c) rest

/-- Search for an unanchored regex match with no leading `\b`. -/
def scanPlain (core : List Char → Bool) : List Char → Bool
  | [] => core []
  | c :: rest => core (c :: rest) || scanPlain core rest

/-- `w1\s+w2`: the first literal, at least one whitespace character, then the
second literal; `tail` receives what follows the second literal. -/
def coreTwoWords (w1 w2 : List Char) (tail : List Char → Bool) (s : List Char) : Bool :=
  w1.isPrefixOf s &&
    (let r := s.drop w1.length
     let r2 := r.dropWhile isSpaceChar
     decide (r2.length < r.length) && w2.isPrefixOf r2 && tail (r2.drop w2.length))

/-- `kw\b`: the literal keyword followed by a trailing word boundary. -/
def coreWord (kw : List Char) (s : List Char) : Bool :=
  kw.isPrefixOf s && bAfter (s.drop kw.length)

/-- `kw\s+(o1|o2|...)`: keyword, at least one whitespace character, then one
of the object keywords (no trailing boundary). -/
def coreKwObject (kw : List Char) (objs : List (List Char)) (s : List Char) : Bool :=
  kw.isPrefixOf s &&
    (let r := s.drop kw.length
     let r2 := r.dropWhile isSpaceChar
     decide (r2.length < r.length) && objs.any fun o => o.isPrefixOf r2)

/-- `.*\bset\b` after `update\b`: a `\b set \b` match reachable without
crossing a line terminator (`.` matches neither a line feed nor a carriage
return); `prev` is the character preceding the current position. -/
def searchSetOnLine : Char → List Char → Bool
  | prev, s =>
    (!(isWordChar prev) && ("set").toList.isPrefixOf s && bAfter (s.drop 3)) ||
      match s with
      | [] => false
      | c :: rest => !(c == '\n') && !(c == '\r') && searchSetOnLine c rest

/-- Core of `/\bupdate\b.*\bset\b/i` at a candidate position. -/
def coreUpdateSet (s : List Char) : Bool :=
  ("update").toList.isPrefixOf s &&
    (let r := s.drop 6
     bAfter r && searchSetOnLine 'e' r)

/-- The object keywords shared by the `drop`, `alter` and `create` patterns. -/
def sqlObjects : List (List Char) :=
  [("table").toList, ("schema").toList, ("database").toList, ("index").toList,
   ("view").toList, ("trigger").toList, ("function").toList, ("procedure").toList]

/-- The nine write-operation patterns of `QueryValidator.isReadOnly`, tested
against the normalized (trimmed, lowercased) SQL string. -/
def anyWritePattern (n : List Char) : Bool :=
  scanWB (coreTwoWords ("insert").toList ("into").toList bAfter) none n ||
  scanWB coreUpdateSet none n ||
  scanWB (coreTwoWords ("delete").toList ("from").toList bAfter) none n ||
  scanWB (coreTwoWords ("truncate").toList ("table").toList bAfter) none n ||
  scanWB (coreKwObject ("drop").toList sqlObjects) none n ||
  scanWB (coreKwObject ("alter").toList sqlObjects) none n ||
  scanWB (coreKwObject ("create").toList sqlObjects) none n ||
  scanWB (coreWord ("grant").toList) none n ||
  scanWB (coreWord ("revoke").toList) none n

/-- `^\s*kw\b`: anchored read-operation pattern of `isReadOnly`. -/
def anchorRead (kw : List Char) (n : List Char) : Bool :=
  kw.isPrefixOf (n.dropWhile isSpaceChar) &&
    bAfter ((n.dropWhile isSpaceChar).drop kw.length)

/-- The four anchored read-operation patterns of `isReadOnly`. -/
def anyReadAnchor (n : List Char) : Bool :=
  anchorRead ("select").toList n || anchorRead ("show").toList n ||
  anchorRead ("describe").toList n || anchorRead ("explain").toList n

/-- `sql.trim().toLowerCase()`, the normalization step of `isReadOnly`. -/
def normalizeSql (s : List Char) : List Char :=
  jsToLower (jsTrim s)

/-- `QueryValidator.isReadOnly` (`query-validator.js`).  `none` stands for a
`null`/`undefined`/non-string argument; the empty string is falsy in
JavaScript and is likewise rejected. -/
def isReadOnly : Option (List Char) → Bool
  | none => false
  | some s =>
    if s.isEmpty then false
    else
      let n := normalizeSql s
      if anyWritePattern n then false
      else if anyReadAnchor n then true
      else false

/-- Whether the string contains two adjacent dashes.  This embeds the test of
the multiline regex `--.*$` on the raw SQL: once a `--` is found, the greedy
`.*` runs to the end of the line and the multiline `$` always succeeds, so
the test is equivalent to containing `--`. -/
def containsDashDash : List Char → Bool
  | [] => false
  | [_] => false
  | a :: b :: rest => (a == '-' && b == '-') || containsDashDash (b :: rest)

/-- Core of `/;\s*\w+/i` at a candidate position: a semicolon, optional
whitespace, then at least one word character. -/
def coreSemiStmt (s : List Char) : Bool :=
  match s with
  | ';' :: r =>
    match r.dropWhile isSpaceChar with
    | c :: _ => isWordChar c
    | [] => false
  | _ => false

/-- `/;\s*\w+/i.test(sql)`: a semicolon followed by another statement. -/
def hasMultipleStatements (s : List Char) : Bool :=
  scanPlain coreSemiStmt s

/-- Core of `/\bname\s*\(/i` at a candidate position: the function name,
optional whitespace, then an opening parenthesis. -/
def coreFnCall (name : List Char) (s : List Char) : Bool :=
  name.isPrefixOf s &&
    (match (s.drop name.length).dropWhile isSpaceChar with
     | '(' :: _ => true
     | _ => false)

/-- The unsafe-function deny list of `validateQuery`; the `/i` flag is
modelled by matching the lowercase patterns on the lowercased SQL. -/
def hasUnsafeFunction (s : List Char) : Bool :=
  let t := jsToLower s
  scanWB (coreFnCall ("copy").toList) none t ||
  scanWB (coreFnCall ("pg_read_file").toList) none t ||
  scanWB (coreFnCall ("pg_read_binary_file").toList) none t ||
  scanWB (coreFnCall ("pg_sleep").toList) none t ||
  scanWB (coreFnCall ("pg_terminate_backend").toList) none t

def msgQueryEmpty : List Char := ("Query cannot be empty").toList

def msgReadOnlyQueries : List Char := ("Only read-only queries are allowed").toList

def msgNoComments : List Char := ("SQL comments are not allowed").toList

def msgNoMultiStmts : List Char := ("Multiple SQL statements are not allowed").toList

def msgUnsafeFns : List Char := ("Query contains potentially unsafe functions").toList

/-- Result record of `QueryValidator.validateQuery`. -/
structure ValidationResult where
  isValid : Bool
  errors : List (List Char)
  deriving DecidableEq

/-- `QueryValidator.validateQuery` (`query-validator.js`): collects all
violated checks into `errors` and sets `isValid` iff the collection is
empty. -/
def validateQuery : Option (List Char) → ValidationResult
  | none => ⟨false, [msgQueryEmpty]⟩
  | some s =>
    if s.isEmpty then ⟨false, [msgQueryEmpty]⟩
    else
      let errors :=
        (if !(isReadOnly (some s)) then [msgReadOnlyQueries] else []) ++
        (if containsDashDash s then [msgNoComments] else []) ++
        (if hasMultipleStatements s then [msgNoMultiStmts] else []) ++
        (if hasUnsafeFunction s then [msgUnsafeFns] else [])
      ⟨errors.isEmpty, errors⟩

/-- Whether a list starts with a dash (helper for `removeLineComments`). -/
def headIsDash : List Char → Bool
  | [] => false
  | c :: _ => c == '-'

/-- One-pass scanner behind `removeLineComments`: when `inComment` is set the
current line comment is being skipped (up to, but not including, the next
line terminator). -/
def removeLCAux : Bool → List Char → List Char
  | _, [] => []
  | true, c :: rest =>
    if c == '\n' || c == '\r' then c :: removeLCAux false rest
    else removeLCAux true rest
  | false, c :: rest =>
    if c == '-' && headIsDash rest then removeLCAux true rest
    else c :: removeLCAux false rest

/-- The global multiline replacement of `--.*$` by the empty string: remove
every line comment; the terminating newline (matched by the zero-width `$`)
is kept. -/
def removeLineComments (s : List Char) : List Char :=
  removeLCAux false s

/-- `QueryValidator.sanitizeQuery` (`query-validator.js`): strip line
comments, keep only the part before the first semicolon (`split(';')[0]`),
then trim.  `none` stands for `null`/non-string input and yields the empty
string, as does the (falsy) empty string. -/
def sanitizeQuery : Option (List Char) → List Char
  | none => []
  | some s =>
    if s.isEmpty then []
    else jsTrim ((removeLineComments s).takeWhile fun c => !(c == ';'))

/-! ### `QueryProvider.validateQueryInput` (mcp-psql/providers/query-provider.js) -/

/-- A JavaScript bind-parameter value. -/
inductive JsParam where
  | jnull
  | jundefined
  | jstr (s : List Char)
  | jnum (n : Int)
  | jbool (b : Bool)
  | jobject
  | jarray
  deriving DecidableEq

/-- Whether `pat` occurs as a contiguous substring. -/
def containsSub (pat : List Char) (s : List Char) : Bool :=
  scanPlain (fun t => pat.isPrefixOf t) s

/-- Search for the closing `*/` of a block comment without crossing a line
terminator (the `.*` between the delimiters matches neither a line feed nor
a carriage return). -/
def searchCloseComment : List Char → Bool
  | [] => false
  | c :: rest =>
    ("*/").toList.isPrefixOf (c :: rest) ||
      (!(c == '\n') && !(c == '\r') && searchCloseComment rest)

/-- Core of the block-comment pattern at a candidate position. -/
def coreBlockComment (s : List Char) : Bool :=
  ("/*").toList.isPrefixOf s && searchCloseComment (s.drop 2)

/-- Core of `w1\s+w2` with no word boundaries (the parameter patterns such as
`union\s+select` carry no `\b`). -/
def coreSeqWords (w1 w2 : List Char) (s : List Char) : Bool :=
  coreTwoWords w1 w2 (fun _ => true) s

/-- `update\s+.*\s+set` at a candidate position: `update`, at least one
whitespace character, an intermediate segment, at least one whitespace
character, then `set`.  The backtracking of the regex is modelled by an
explicit search over the two split points; the middle `.*` may not contain a
line terminator, while the two `\s+` may. -/
def coreUpdateAnySet (s : List Char) : Bool :=
  ("update").toList.isPrefixOf s &&
    (let r := s.drop 6
     (List.range (r.length + 1)).any fun a =>
       (List.range (r.length + 1)).any fun b =>
         decide (1 ≤ a) && decide (a ≤ b) &&
         (r.take a).all isSpaceChar &&
         ((r.drop a).take (b - a)).all (fun c => !(c == '\n') && !(c == '\r')) &&
         (let w := r.drop b
          (List.range (w.length + 1)).any fun k =>
            decide (1 ≤ k) && (w.take k).all isSpaceChar &&
              ("set").toList.isPrefixOf (w.drop k)))

/-- The `dangerousPatterns` scan applied to a string-valued bind parameter.
Patterns with the `/i` flag are matched on the lowercased string. -/
def dangerousParamString (p : List Char) : Bool :=
  let pl := jsToLower p
  containsDashDash p ||
  p.contains ';' ||
  scanPlain coreBlockComment p ||
  scanPlain (coreSeqWords ("union").toList ("select").toList) pl ||
  scanPlain (coreSeqWords ("insert").toList ("into").toList) pl ||
  scanPlain coreUpdateAnySet pl ||
  scanPlain (coreSeqWords ("delete").toList ("from").toList) pl ||
  scanPlain (coreSeqWords ("drop").toList ("table").toList) pl

def msgQueryNonEmptyString : List Char := ("Query must be a non-empty string").toList

def msgParamsArray : List Char := ("Parameters must be an array").toList

def msgMultiStmtsInput : List Char := ("Multiple statements are not allowed").toList

def msgWriteOps : List Char := ("Write operations are not allowed").toList

def paramNullMsg (i : Nat) : List Char :=
  ("Parameter at index ").toList ++ (Nat.repr i).toList ++
    (" cannot be null or undefined").toList

def paramObjMsg (i : Nat) : List Char :=
  ("Parameter at index ").toList ++ (Nat.repr i).toList ++
    (" cannot be an object").toList

def paramDangerMsg (i : Nat) : List Char :=
  ("Parameter at index ").toList ++ (Nat.repr i).toList ++
    (" contains potentially dangerous content").toList

/-- The per-parameter loop of `validateQueryInput`; a thrown
`ValidationError` terminates the iteration (`Except.error`). -/
def checkParamsFrom : Nat → List JsParam → Except (List Char) Unit
  | _, [] => .ok ()
  | i, p :: rest =>
    match p with
    | .jnull => .error (paramNullMsg i)
    | .jundefined => .error (paramNullMsg i)
    | .jobject => .error (paramObjMsg i)
    | .jarray => .error (paramObjMsg i)
    | .jstr s =>
      if dangerousParamString s then .error (paramDangerMsg i)
      else checkParamsFrom (i + 1) rest
    | .jnum _ => checkParamsFrom (i + 1) rest
    | .jbool _ => checkParamsFrom (i + 1) rest

/-- Whether a single bind parameter passes the per-parameter checks of
`validateQueryInput`: not null/undefined, not a composite (object/array)
value, and, for strings, free of the dangerous patterns. -/
def paramOk : JsParam → Bool
  | .jnull => false
  | .jundefined => false
  | .jobject => false
  | .jarray => false
  | .jstr s => !(dangerousParamString s)
  | .jnum _ => true
  | .jbool _ => true

/-- The `dangerousOperations` substring list scanned over the lowercased SQL. -/
def dangerousOperations : List (List Char) :=
  [("insert").toList, ("update").toList, ("delete").toList, ("drop").toList,
   ("create").toList, ("alter").toList, ("truncate").toList]

/-- `QueryProvider.validateQueryInput`
(mcp-psql/providers/query-provider.js): throws (`Except.error`) at the first
violated check, in source order: query null/type, parameter array type, the
per-parameter checks, the semicolon scan, then the dangerous-operation
substring scan.  `query = none` models a `null`/non-string query and
`params = none` a non-array `params` argument. -/
def validateQueryInput (query : Option (List Char)) (params : Option (List JsParam)) :
    Except (List Char) Unit :=
  match query with
  | none => .error msgQueryNonEmptyString
  | some q =>
    if q.isEmpty then .error msgQueryNonEmptyString
    else
      match params with
      | none => .error msgParamsArray
      | some ps =>
        match checkParamsFrom 0 ps with
        | .error e => .error e
        | .ok () =>
          let ql := jsToLower q
          if ql.contains ';' then .error msgMultiStmtsInput
          else if dangerousOperations.any (fun op => containsSub op ql) then
            .error msgWriteOps
          else .ok ()

/-! ### Database error translation (src/error-handler.js and
mcp-psql/middleware/error-handler.js) -/

/-- The error kinds (the `code` field of the serialized error) produced by
the two error handlers. -/
inductive ErrKind where
  | databaseError
  | validationError
  | notFound
  | authorizationError
  | authenticationError
  | rateLimitError
  | internalServerError
  deriving DecidableEq

/-- The `pgErrorMap` lookup of `handleDatabaseError`: the nine enumerated
PostgreSQL error codes with their kind and HTTP status. -/
def pgErrorMapLookup (code : List Char) : Option (ErrKind × Nat) :=
  if code = ("42P01").toList then some (.notFound, 404)
  else if code = ("42P04").toList then some (.validationError, 400)
  else if code = ("42501").toList then some (.authorizationError, 403)
  else if code = ("42601").toList then some (.validationError, 400)
  else if code = ("42703").toList then some (.validationError, 400)
  else if code = ("42P20").toList then some (.validationError, 400)
  else if code = ("22P02").toList then some (.validationError, 400)
  else if code = ("23505").toList then some (.validationError, 400)
  else if code = ("57014").toList then some (.validationError, 400)
  else none

/-- `handleDatabaseError` (`error-handler.js`, identical in both copies):
translate a raw database error code to the kind and HTTP status of the
`ApiError` it constructs; any unmapped (or absent, or falsy empty-string)
code yields the generic `DatabaseError` with status 500. -/
def handleDatabaseError (code : Option (List Char)) : ErrKind × Nat :=
  match code with
  | none => (.databaseError, 500)
  | some c =>
    if c.isEmpty then (.databaseError, 500)
    else
      match pgErrorMapLookup c with
      | some r => r
      | none => (.databaseError, 500)

/-- Whether a raw error code matches the 5-character alphanumeric pattern
required before `handleDatabaseError` is consulted by the root service's
middleware. -/
def isFiveCharCode (c : List Char) : Bool :=
  c.length == 5 &&
    c.all fun ch => (48 ≤ ch.toNat && ch.toNat ≤ 57) || (65 ≤ ch.toNat && ch.toNat ≤ 90)

/-- An error object reaching an error-handler middleware: either one of the
service's own typed errors (carrying its kind and HTTP status) or a raw error
with an optional `code` property. -/
inductive MwError where
  | typed (kind : ErrKind) (status : Nat)
  | raw (code : Option (List Char))
  deriving DecidableEq

/-- `errorHandlerMiddleware` of `src/error-handler.js`: pass `ApiError`s
through; route raw errors with a 5-character alphanumeric code through
`handleDatabaseError`; default to a 500 internal error.  The result is the
(kind, HTTP status) pair of the response. -/
def errorMiddlewareSrc : MwError → ErrKind × Nat
  | .typed k st => (k, st)
  | .raw code =>
    match code with
    | some c =>
      if !(c.isEmpty) && isFiveCharCode c then handleDatabaseError (some c)
      else (.internalServerError, 500)
    | none => (.internalServerError, 500)

/-- `errorHandlerMiddleware` of `mcp-psql/middleware/error-handler.js`
(lines 166-187): `CustomError`s pass through; a raw error whose code starts
with `28` becomes a 503 `DATABASE_ERROR`; anything else a 500
`INTERNAL_SERVER_ERROR`. -/
def errorMiddlewareMcp : MwError → ErrKind × Nat
  | .typed k st => (k, st)
  | .raw code =>
    match code with
    | some c =>
      if !(c.isEmpty) && ("28").toList.isPrefixOf c then (.databaseError, 503)
      else (.internalServerError, 500)
    | none => (.internalServerError, 500)

/-! ### `DatabaseConnector.query` retry logic (db-connector.js) -/

/-- `DatabaseConnector.isConnectionError`: the code must be truthy and be
`ECONNREFUSED`, `ETIMEDOUT`, or start with `28`. -/
def isConnectionError (code : Option (List Char)) : Bool :=
  match code with
  | none => false
  | some c =>
    if c.isEmpty then false
    else c == ("ECONNREFUSED").toList || c == ("ETIMEDOUT").toList ||
      ("28").toList.isPrefixOf c

def maxRetries : Nat := 3

/-- `this.retryDelay`, in milliseconds. -/
def retryDelay : Nat := 5000

/-- The outcome of one attempt of `pool.query`, supplied by an oracle list:
either a successful result (its row count) or a failure with an error code
and message. -/
inductive AttemptResult where
  | ok (rows : Nat)
  | fail (code : Option (List Char)) (msg : List Char)
  deriving DecidableEq

/-- The `CustomError` thrown by `DatabaseConnector.query` on a terminal
failure (kind `QUERY_EXECUTION_ERROR`, status 500, original message kept in
the details). -/
structure QueryExecError where
  status : Nat
  origMsg : List Char
  deriving DecidableEq

/-- `DatabaseConnector.query` (`db-connector.js` lines 59-101): each oracle
entry is the outcome of one attempt.  On a connection-class error with
`retryAttempts < maxRetries` the connector sleeps `retryDelay` milliseconds,
increments the shared attempt counter and retries; otherwise it throws.  The
first component accumulates the total milliseconds spent sleeping in retry
back-off (the modelled wall time of the call beyond the attempts themselves).
An exhausted oracle is a modelling artifact treated as a terminal failure. -/
def dcQuery : List AttemptResult → Nat → Nat × Except QueryExecError Nat
  | [], _ => (0, .error ⟨500, []⟩)
  | .ok r :: _, _ => (0, .ok r)
  | .fail code msg :: rest, retryAttempts =>
    if isConnectionError code && retryAttempts < maxRetries then
      let next := dcQuery rest (retryAttempts + 1)
      (retryDelay + next.1, next.2)
    else (0, .error ⟨500, msg⟩)

/-! ### `QueryModel.executeQuery` (mcp-psql/models/query-model.js) and
`QueryProvider.executeQuery` (query-provider.js of the same service) -/

/-- An observable interaction with the connection pool / client. -/
inductive PoolStep where
  | acquire
  | runSql (sql : List Char)
  | release
  deriving DecidableEq

/-- A field descriptor as reported by the driver. -/
structure PgField where
  name : List Char
  dataTypeID : Nat
  deriving DecidableEq

/-- The `dataTypes` table of `QueryModel._getDataTypeName`. -/
def dataTypesTable : List (Nat × List Char) :=
  [(16, ("boolean").toList), (17, ("bytea").toList), (18, ("char").toList),
   (19, ("name").toList), (20, ("int8").toList), (21, ("int2").toList),
   (23, ("int4").toList), (25, ("text").toList), (26, ("oid").toList),
   (114, ("json").toList), (142, ("xml").toList), (650, ("cidr").toList),
   (700, ("float4").toList), (701, ("float8").toList), (705, ("unknown").toList),
   (718, ("circle").toList), (790, ("money").toList), (829, ("macaddr").toList),
   (869, ("inet").toList), (1042, ("bpchar").toList), (1043, ("varchar").toList),
   (1082, ("date").toList), (1083, ("time").toList), (1114, ("timestamp").toList),
   (1184, ("timestamptz").toList), (1186, ("interval").toList),
   (1266, ("timetz").toList), (1560, ("bit").toList), (1562, ("varbit").toList),
   (1700, ("numeric").toList), (2278, ("void").toList), (2950, ("uuid").toList),
   (3500, ("jsonb").toList), (3614, ("tsvector").toList),
   (3802, ("jsonpath").toList)]

/-- `QueryModel._getDataTypeName`: the fixed PostgreSQL type-OID lookup
table; unknown IDs map to `unknown`. -/
def getDataTypeName (dataTypeID : Nat) : List Char :=
  match (dataTypesTable.find? fun e => e.1 == dataTypeID) with
  | some e => e.2
  | none => ("unknown").toList

/-- A field of the result of `QueryModel.executeQuery`. -/
structure FieldInfo where
  name : List Char
  dataTypeID : Nat
  dataType : List Char
  deriving DecidableEq

/-- The result record of `QueryModel.executeQuery`.  Rows are abstract
identifiers (`Nat`); `totalRows`, `returnedRows` and `rowsLimited` are the
`metadata` fields of the source (the wall-clock `executionTime` is not
modelled). -/
structure ExecResult where
  rows : List Nat
  rowCount : Nat
  fields : List FieldInfo
  rowsLimited : Bool
  totalRows : Nat
  returnedRows : Nat
  deriving DecidableEq

/-- The behaviour of the backend for one `executeQuery` call: the `SET`
statement fails, the query fails with a message, or the query succeeds with a
full (untruncated) row list and field descriptors.  For a successful
`SELECT`, the driver's `rowCount` is the number of matched rows, i.e. the
length of the full row list. -/
inductive ModelOutcome where
  | setFails (msg : List Char)
  | fail (msg : List Char)
  | ok (rows : List Nat) (fields : List PgField)
  deriving DecidableEq

/-- The SQL text of the per-connection server-side timeout statement
issued before the query (`SET statement_timeout TO <timeout>;`). -/
def setTimeoutSql (timeout : Nat) : List Char :=
  ("SET statement_timeout TO ").toList ++ (Nat.repr timeout).toList ++ (";").toList

/-- `QueryModel.executeQuery` (mcp-psql/models/query-model.js lines 16-53):
acquire a client, set the server-side statement timeout, run the query, and
release the client in a `finally` block on every exit path.  Returns the
interaction trace with the pool and the result. -/
def executeQueryModel (maxRows : Nat) (timeout : Nat) (sql : List Char)
    (oc : ModelOutcome) : List PoolStep × Except (List Char) ExecResult :=
  match oc with
  | .setFails msg =>
    ([.acquire, .runSql (setTimeoutSql timeout), .release], .error msg)
  | .fail msg =>
    ([.acquire, .runSql (setTimeoutSql timeout), .runSql sql, .release], .error msg)
  | .ok rows fields =>
    let limitedRows := rows.take maxRows
    ([.acquire, .runSql (setTimeoutSql timeout), .runSql sql, .release],
     .ok { rows := limitedRows,
           rowCount := rows.length,
           fields := fields.map fun f =>
             ⟨f.name, f.dataTypeID, getDataTypeName f.dataTypeID⟩,
           rowsLimited := decide (rows.length > maxRows),
           totalRows := rows.length,
           returnedRows := limitedRows.length })

/-- An error surfaced by `QueryProvider.executeQuery`: either a
`ValidationError` (with its message) or the re-thrown backend error. -/
inductive ProviderError where
  | validationError (msg : List Char)
  | raw (msg : List Char)
  deriving DecidableEq

def msgInvalidQuery : List Char := ("Invalid query").toList

def msgTimedOut : List Char := ("Query execution timed out").toList

/-- The timeout signature matched against the backend error message. -/
def stmtTimeoutSig : List Char := ("statement timeout").toList

/-- `QueryProvider.executeQuery` of the mcp-psql service (lines 239-276 of
its query-provider.js): validate, sanitize, execute through the model, and
report a backend message containing `statement timeout` as the distinct
`Query execution timed out` validation error.  (The advisory complexity
warnings attached to successful results are not modelled.)  Validation
failure throws before any pool interaction, so the trace is empty there. -/
def providerExecuteQuery (maxRows : Nat) (timeout : Nat) (sql : Option (List Char))
    (oc : ModelOutcome) : List PoolStep × Except ProviderError ExecResult :=
  let validation := validateQuery sql
  if !validation.isValid then
    ([], .error (.validationError msgInvalidQuery))
  else
    let sanitizedSql := sanitizeQuery sql
    let res := executeQueryModel maxRows timeout sanitizedSql oc
    match res.2 with
    | .ok r => (res.1, .ok r)
    | .error msg =>
      if containsSub stmtTimeoutSig msg then
        (res.1, .error (.validationError msgTimedOut))
      else (res.1, .error (.raw msg))

/-- Number of pool acquisitions in a trace. -/
def countAcquire (tr : List PoolStep) : Nat :=
  tr.countP fun st => st == .acquire

/-- Number of pool releases in a trace. -/
def countRelease (tr : List PoolStep) : Nat :=
  tr.countP fun st => st == .release

/-- Number of statements sent to the backend in a trace. -/
def countRunSql (tr : List PoolStep) : Nat :=
  tr.countP fun st =>
    match st with
    | .runSql _ => true
    | _ => false

/-! ### Claim-side notions (the specification's wording, for comparison with
the embedded code) -/

/-- Claim-side: the keyword occurs somewhere in the string at a word
boundary, case-insensitively (the match is performed on the lowercased
string). -/
def occursWordCI (kw : List Char) (s : List Char) : Bool :=
  scanWB (coreWord kw) none (jsToLower s)

/-- The nine write-operation keywords named by the specification. -/
def writeKeywords : List (List Char) :=
  [("insert").toList, ("update").toList, ("delete").toList, ("drop").toList,
   ("alter").toList, ("create").toList, ("truncate").toList, ("grant").toList,
   ("revoke").toList]

/-- Claim-side: the SQL string contains one of the nine write-operation
keywords, case-insensitively, at a word boundary. -/
def containsWriteKeyword (s : List Char) : Bool :=
  writeKeywords.any fun kw => occursWordCI kw s

/-- Claim-side: after leading whitespace the string begins with the keyword
(case-insensitively) as a whole word. -/
def ciAnchorKw (kw : List Char) (s : List Char) : Bool :=
  let t := s.dropWhile isSpaceChar
  jsToLower (t.take kw.length) == kw && bAfter (t.drop kw.length)

/-- The four read keywords named by the specification. -/
def readKeywords : List (List Char) :=
  [("select").toList, ("show").toList, ("describe").toList, ("explain").toList]

/-- Claim-side: the SQL string (after leading whitespace) begins with one of
the four read keywords. -/
def beginsWithReadKeyword (s : List Char) : Bool :=
  readKeywords.any fun kw => ciAnchorKw kw s

/-! ### Auxiliary lemmas and concrete evaluations -/

theorem toLower_of_space {c : Char} (h : isSpaceChar c = true) :
    c.toLower = c := by
  unfold Char.toLower
  dsimp only
  rw [if_neg]
  simp only [isSpaceChar, decide_eq_true_eq] at h
  omega

theorem not_word_of_space {c : Char} (h : isSpaceChar c = true) :
    isWordChar c = false := by
  simp only [isSpaceChar, decide_eq_true_eq] at h
  simp only [isWordChar, decide_eq_false_iff_not]
  omega

theorem toNat_ofNat_of_valid {n : Nat} (h : n.isValidChar) :
    (Char.ofNat n).toNat = n := by
  simp [Char.ofNat, Char.ofNatAux, h, Char.toNat, UInt32.toNat]

theorem isWordChar_toLower (c : Char) :
    isWordChar c.toLower = isWordChar c := by
  unfold Char.toLower
  dsimp only
  by_cases h : c.toNat ≥ 65 ∧ c.toNat ≤ 90
  · rw [if_pos h]
    have hval : (Char.ofNat (c.toNat + 32)).toNat = c.toNat + 32 :=
      toNat_ofNat_of_valid (Or.inl (by omega))
    simp only [isWordChar, hval]
    rw [decide_eq_decide]
    omega
  · rw [if_neg h]

theorem isSpaceChar_toLower (c : Char) :
    isSpaceChar c.toLower = isSpaceChar c := by
  unfold Char.toLower
  dsimp only
  by_cases h : c.toNat ≥ 65 ∧ c.toNat ≤ 90
  · rw [if_pos h]
    have hval : (Char.ofNat (c.toNat + 32)).toNat = c.toNat + 32 :=
      toNat_ofNat_of_valid (Or.inl (by omega))
    simp only [isSpaceChar, hval]
    rw [decide_eq_decide]
    omega
  · rw [if_neg h]

example : isReadOnly (some ("SELECT * FROM users").toList) = true := by decide

example : isReadOnly (some ("  select 1 ").toList) = true := by decide

example : isReadOnly (some ("INSERT INTO t VALUES (1)").toList) = false := by decide

example : isReadOnly (some ("select 1; drop role admin").toList) = true := by decide

example : isReadOnly (some ("DROP TABLE users").toList) = false := by decide

example : isReadOnly (some ("update t set x = 1").toList) = false := by decide

example : isReadOnly (some ("select * from t where a grant b").toList) = false := by decide

example : isReadOnly (some ("explain select 1").toList) = true := by decide

example : isReadOnly (some ("  SHOW TABLES").toList) = true := by decide

example : isReadOnly (some ("describe t").toList) = true := by decide

example : isReadOnly (some ("TRUNCATE TABLE logs").toList) = false := by decide

example : isReadOnly (some ("select 1 from t; alter table t").toList) = false := by
  decide

example : isReadOnly (some ("select 1; create index i").toList) = false := by decide

example : isReadOnly (some ("select 1; revoke all").toList) = false := by decide

example : isReadOnly (some ("select 1; insert into t").toList) = false := by decide

example : isReadOnly (some ("select 1; delete from t").toList) = false := by decide

example : isReadOnly (some ("select a as update from t where set = 1").toList) =
    false := by decide

example : isReadOnly (some ("select update\nwhere set = 1").toList) = true := by
  decide

example : isReadOnly (some ("selects x from t").toList) = false := by decide

example : isReadOnly none = false := by decide

example : isReadOnly (some []) = false := by decide

example : validateQuery (some ("SELECT 1").toList) = ⟨true, []⟩ := by decide

example :
    (validateQuery (some ("SELECT * FROM t -- comment").toList)).errors =
      [msgNoComments] := by decide

example :
    (validateQuery (some ("SELECT 1; DROP TABLE users").toList)).errors =
      [msgReadOnlyQueries, msgNoMultiStmts] := by decide

example :
    (validateQuery (some ("select pg_sleep(10)").toList)).errors =
      [msgUnsafeFns] := by decide

example :
    sanitizeQuery (some ("  SELECT 1 -- note\n; DROP TABLE t").toList) =
      ("SELECT 1").toList := by decide

example : sanitizeQuery (some ("--only a comment").toList) = [] := by decide

example : sanitizeQuery (some ("a --x\r\nb").toList) = ("a \r\nb").toList := by
  decide

example : sanitizeQuery none = [] := by decide

example : dangerousParamString ("/* x */").toList = true := by decide

example : dangerousParamString ("/*\n*/").toList = false := by decide

example : dangerousParamString ("UNION  SELECT a").toList = true := by decide

example : dangerousParamString ("a union b select c").toList = false := by decide

example :
    validateQueryInput (some ("select x from t").toList) (some [.jnum 3]) =
      .ok () := by rfl

example :
    validateQueryInput (some ("select x from t").toList)
      (some [.jstr ("a; b").toList]) = .error (paramDangerMsg 0) := by rfl

example :
    validateQueryInput (some ("select * from updated_rows").toList) (some []) =
      .error msgWriteOps := by rfl

example :
    validateQueryInput (some ("select 1").toList)
      (some [.jnull, .jobject]) = .error (paramNullMsg 0) := by rfl

example : handleDatabaseError (some ("42P01").toList) = (.notFound, 404) := by decide

example : handleDatabaseError (some ("28000").toList) = (.databaseError, 500) := by decide

example : errorMiddlewareSrc (.raw (some ("28000").toList)) = (.databaseError, 500) := by
  decide

example : errorMiddlewareMcp (.raw (some ("28000").toList)) = (.databaseError, 503) := by
  decide

example : errorMiddlewareMcp (.raw (some ("42P01").toList)) = (.internalServerError, 500) := by
  decide

example :
    dcQuery [.fail (some ("ECONNREFUSED").toList) [], .ok 7] 0 =
      (5000, .ok 7) := by rfl

example :
    dcQuery [.fail (some ("42601").toList) ("syntax error").toList, .ok 7] 0 =
      (0, .error ⟨500, ("syntax error").toList⟩) := by rfl

example :
    (providerExecuteQuery 10000 30000 (some ("DROP TABLE users").toList)
      (.ok [] [])).1 = [] := by rfl

example :
    countAcquire (providerExecuteQuery 10000 30000 (some ("SELECT 1").toList)
      (.fail ("x").toList)).1 = 1 := by rfl

example :
    (providerExecuteQuery 10000 30000 (some ("SELECT 1").toList)
      (.fail ("canceling statement due to statement timeout").toList)).2 =
      .error (.validationError msgTimedOut) := by rfl

theorem scanWB_here {core : List Char → Bool} {p : Option Char} {s : List Char}
    (h1 : boundaryBefore p = true) (h2 : core s = true) :
    scanWB core p s = true := by
  cases s <;> simp [scanWB, h1, h2]

theorem scanWB_cons_of {core : List Char → Bool} {c : Char} {rest : List Char}
    {p : Option Char} (h : scanWB core (some c) rest = true) :
    scanWB core p (c :: rest) = true := by
  simp [scanWB, h]

theorem scanWB_mono {c1 c2 : List Char → Bool}
    (himp : ∀ t, c1 t = true → c2 t = true) :
    ∀ (p : Option Char) (s : List Char),
      scanWB c1 p s = true → scanWB c2 p s = true := by
  intro p s
  induction s generalizing p with
  | nil =>
    simp only [scanWB, Bool.and_eq_true]
    exact fun ⟨h1, h2⟩ => ⟨h1, himp _ h2⟩
  | cons c rest ih =>
    simp only [scanWB, Bool.and_eq_true, Bool.or_eq_true]
    rintro (⟨h1, h2⟩ | h)
    · exact Or.inl ⟨h1, himp _ h2⟩
    · exact Or.inr (ih _ h)

theorem scanWB_prev {core : List Char → Bool} {p q : Option Char}
    (himp : boundaryBefore p = true → boundaryBefore q = true) {s : List Char}
    (h : scanWB core p s = true) : scanWB core q s = true := by
  cases s with
  | nil =>
    simp only [scanWB, Bool.and_eq_true] at h ⊢
    exact ⟨himp h.1, h.2⟩
  | cons c rest =>
    simp only [scanWB, Bool.and_eq_true, Bool.or_eq_true] at h ⊢
    rcases h with ⟨h1, h2⟩ | h
    · exact Or.inl ⟨himp h1, h2⟩
    · exact Or.inr h

theorem scanWB_prepend_ws {core : List Char → Bool} {a : List Char}
    (ha : ∀ c ∈ a, isSpaceChar c = true) {s : List Char}
    (h : scanWB core none s = true) : scanWB core none (a ++ s) = true := by
  induction a with
  | nil => simpa
  | cons c a2 ih =>
    have hc : isSpaceChar c = true := ha c (by simp)
    have h2 : scanWB core none (a2 ++ s) = true :=
      ih fun d hd => ha d (by simp [hd])
    have h3 : scanWB core (some c) (a2 ++ s) = true :=
      scanWB_prev (fun _ => by simp [boundaryBefore, not_word_of_space hc]) h2
    exact scanWB_cons_of h3

theorem scanWB_append_right {core : List Char → Bool} {b : List Char}
    (hcore : ∀ t, core t = true → core (t ++ b) = true) :
    ∀ (p : Option Char) (s : List Char),
      scanWB core p s = true → scanWB core p (s ++ b) = true := by
  intro p s
  induction s generalizing p with
  | nil =>
    intro h
    simp only [scanWB, Bool.and_eq_true] at h
    have := hcore [] h.2
    rw [List.nil_append] at this ⊢
    exact scanWB_here h.1 this
  | cons c rest ih =>
    intro h
    simp only [scanWB, Bool.and_eq_true, Bool.or_eq_true] at h
    rcases h with ⟨h1, h2⟩ | h
    · exact scanWB_here h1 (hcore _ h2)
    · exact scanWB_cons_of (ih _ h)

theorem head_space_of_dropWhile_lt {l : List Char}
    (h : (l.dropWhile isSpaceChar).length < l.length) :
    ∃ c t, l = c :: t ∧ isSpaceChar c = true := by
  cases l with
  | nil => simp at h
  | cons c t =>
    by_cases hc : isSpaceChar c = true
    · exact ⟨c, t, rfl, hc⟩
    · rw [List.dropWhile_cons, if_neg (by simp [hc])] at h
      exact absurd h (lt_irrefl _)

theorem coreTwoWords_word {w1 w2 : List Char} {tl : List Char → Bool}
    {s : List Char} (h : coreTwoWords w1 w2 tl s = true) :
    coreWord w1 s = true := by
  simp only [coreTwoWords, Bool.and_eq_true, decide_eq_true_eq] at h
  obtain ⟨h1, ⟨hlt, _⟩, _⟩ := h
  obtain ⟨c, t, heq, hc⟩ := head_space_of_dropWhile_lt hlt
  simp only [coreWord, Bool.and_eq_true]
  refine ⟨h1, ?_⟩
  rw [heq]
  simp [bAfter, not_word_of_space hc]

theorem coreKwObject_word {kw : List Char} {objs : List (List Char)}
    {s : List Char} (h : coreKwObject kw objs s = true) :
    coreWord kw s = true := by
  simp only [coreKwObject, Bool.and_eq_true, decide_eq_true_eq] at h
  obtain ⟨h1, hlt, _⟩ := h
  obtain ⟨c, t, heq, hc⟩ := head_space_of_dropWhile_lt hlt
  simp only [coreWord, Bool.and_eq_true]
  refine ⟨h1, ?_⟩
  rw [heq]
  simp [bAfter, not_word_of_space hc]

theorem coreUpdateSet_word {s : List Char} (h : coreUpdateSet s = true) :
    coreWord (("update").toList) s = true := by
  simp only [coreUpdateSet, Bool.and_eq_true] at h
  obtain ⟨h1, h2, _⟩ := h
  simp only [coreWord, Bool.and_eq_true]
  exact ⟨h1, h2⟩

theorem coreWord_append_ws {kw b : List Char}
    (hb : ∀ c ∈ b, isSpaceChar c = true) {s : List Char}
    (h : coreWord kw s = true) : coreWord kw (s ++ b) = true := by
  simp only [coreWord, Bool.and_eq_true] at h ⊢
  obtain ⟨h1, h2⟩ := h
  have hpre : kw <+: s := List.isPrefixOf_iff_prefix.mp h1
  have hlen : kw.length ≤ s.length := hpre.sublist.length_le
  refine ⟨List.isPrefixOf_iff_prefix.mpr (hpre.trans (List.prefix_append s b)), ?_⟩
  rw [List.drop_append_of_le_length hlen]
  cases hd : s.drop kw.length with
  | nil =>
    rw [List.nil_append]
    cases b with
    | nil => rfl
    | cons c bt => simpa [bAfter] using not_word_of_space (hb c (by simp))
  | cons c t =>
    rw [hd] at h2
    simpa [bAfter] using h2

theorem rdropWhile_append_rtakeWhile (p : Char → Bool) (l : List Char) :
    l.rdropWhile p ++ l.rtakeWhile p = l := by
  rw [List.rdropWhile, List.rtakeWhile, ← List.reverse_append,
    List.takeWhile_append_dropWhile, List.reverse_reverse]

theorem occursWordCI_of_normalized {kw s : List Char}
    (h : scanWB (coreWord kw) none (normalizeSql s) = true) :
    occursWordCI kw s = true := by
  unfold occursWordCI
  have hmap : jsToLower s =
      jsToLower (s.takeWhile isSpaceChar) ++
        (jsToLower (jsTrim s) ++
          jsToLower ((s.dropWhile isSpaceChar).rtakeWhile isSpaceChar)) := by
    conv_lhs =>
      rw [← List.takeWhile_append_dropWhile (p := isSpaceChar) (l := s),
        ← rdropWhile_append_rtakeWhile isSpaceChar (s.dropWhile isSpaceChar)]
    simp [jsToLower, jsTrim]
  rw [hmap]
  apply scanWB_prepend_ws
  · intro c hc
    simp only [jsToLower, List.mem_map] at hc
    obtain ⟨d, hd, rfl⟩ := hc
    rw [isSpaceChar_toLower]
    exact List.mem_takeWhile_imp hd
  · apply scanWB_append_right ?_ none _ h
    intro t ht
    apply coreWord_append_ws ?_ ht
    intro c hc
    simp only [jsToLower, List.mem_map] at hc
    obtain ⟨d, hd, rfl⟩ := hc
    rw [isSpaceChar_toLower]
    exact List.mem_rtakeWhile_imp hd

theorem containsWriteKeyword_of_anyWritePattern {s : List Char}
    (h : anyWritePattern (normalizeSql s) = true) :
    containsWriteKeyword s = true := by
  have give : ∀ kw, kw ∈ writeKeywords → occursWordCI kw s = true →
      containsWriteKeyword s = true := by
    intro kw hmem hocc
    simp only [containsWriteKeyword, List.any_eq_true]
    exact ⟨kw, hmem, hocc⟩
  simp only [anyWritePattern, Bool.or_eq_true] at h
  rcases h with ((((((((h | h) | h) | h) | h) | h) | h) | h) | h)
  · exact give _ (by simp [writeKeywords])
      (occursWordCI_of_normalized (scanWB_mono (fun t ht => coreTwoWords_word ht) _ _ h))
  · exact give _ (by simp [writeKeywords])
      (occursWordCI_of_normalized (scanWB_mono (fun t ht => coreUpdateSet_word ht) _ _ h))
  · exact give _ (by simp [writeKeywords])
      (occursWordCI_of_normalized (scanWB_mono (fun t ht => coreTwoWords_word ht) _ _ h))
  · exact give _ (by simp [writeKeywords])
      (occursWordCI_of_normalized (scanWB_mono (fun t ht => coreTwoWords_word ht) _ _ h))
  · exact give _ (by simp [writeKeywords])
      (occursWordCI_of_normalized (scanWB_mono (fun t ht => coreKwObject_word ht) _ _ h))
  · exact give _ (by simp [writeKeywords])
      (occursWordCI_of_normalized (scanWB_mono (fun t ht => coreKwObject_word ht) _ _ h))
  · exact give _ (by simp [writeKeywords])
      (occursWordCI_of_normalized (scanWB_mono (fun t ht => coreKwObject_word ht) _ _ h))
  · exact give _ (by simp [writeKeywords]) (occursWordCI_of_normalized h)
  · exact give _ (by simp [writeKeywords]) (occursWordCI_of_normalized h)

theorem dropWhile_head_not {p : Char → Bool} :
    ∀ {l : List Char} {c : Char} {rest : List Char},
      l.dropWhile p = c :: rest → p c = false := by
  intro l
  induction l with
  | nil => intro c rest h; simp at h
  | cons a l2 ih =>
    intro c rest h
    rw [List.dropWhile_cons] at h
    by_cases ha : p a = true
    · rw [if_pos (by simp [ha])] at h
      exact ih h
    · rw [if_neg (by simp [Bool.not_eq_true] at ha ⊢; simp [ha])] at h
      cases h
      simpa using ha

theorem ciAnchor_anchorRead {kw s : List Char} (hkw : kw ≠ [])
    (hkwords : ∀ c ∈ kw, isSpaceChar c = false)
    (h : ciAnchorKw kw s = true) : anchorRead kw (normalizeSql s) = true := by
  simp only [ciAnchorKw, Bool.and_eq_true, beq_iff_eq] at h
  obtain ⟨h1, h2⟩ := h
  set t := s.dropWhile isSpaceChar with ht
  set trim := t.rdropWhile isSpaceChar with htrim
  set trail := t.rtakeWhile isSpaceChar with htrail
  have htt : trim ++ trail = t := rdropWhile_append_rtakeWhile isSpaceChar t
  have hnorm : normalizeSql s = jsToLower trim := rfl
  -- the keyword fits inside `t`
  have hklen : kw.length ≤ t.length := by
    have hlen := congrArg List.length h1
    simp only [jsToLower, List.length_map, List.length_take] at hlen
    omega
  have httlen : trim.length + trail.length = t.length := by
    have := congrArg List.length htt
    simpa using this
  -- the keyword fits inside the trimmed part
  have hktrim : kw.length ≤ trim.length := by
    by_contra hlt
    push_neg at hlt
    have htake : t.take kw.length = trim ++ trail.take (kw.length - trim.length) := by
      rw [← htt, List.take_append_eq_append_take,
        List.take_of_length_le (by omega : trim.length ≤ kw.length)]
    have hpos : 0 < (trail.take (kw.length - trim.length)).length := by
      simp only [List.length_take]
      omega
    obtain ⟨c0, tt, hct⟩ : ∃ c0 tt, trail.take (kw.length - trim.length) = c0 :: tt := by
      cases hcase : trail.take (kw.length - trim.length) with
      | nil => rw [hcase] at hpos; simp at hpos
      | cons c0 tt => exact ⟨c0, tt, rfl⟩
    have hc0trail : c0 ∈ trail := List.take_subset _ _ (by rw [hct]; simp)
    have hc0ws : isSpaceChar c0 = true := List.mem_rtakeWhile_imp hc0trail
    have hc0kw : c0.toLower ∈ kw := by
      rw [← h1, htake, hct]
      simp [jsToLower]
    have := hkwords _ hc0kw
    rw [isSpaceChar_toLower, hc0ws] at this
    exact absurd this (by simp)
  -- the keyword is a prefix of the normalized string
  have htaketrim : t.take kw.length = trim.take kw.length := by
    rw [← htt, List.take_append_of_le_length hktrim]
  have hkwn : (jsToLower trim).take kw.length = kw := by
    rw [← h1, htaketrim]
    simp [jsToLower]
  have hpre : kw.isPrefixOf (jsToLower trim) = true := by
    have hp := List.take_prefix kw.length (jsToLower trim)
    rw [hkwn] at hp
    exact List.isPrefixOf_iff_prefix.mpr hp
  -- the trimmed part is nonempty and starts with a non-whitespace character
  have htrimne : trim ≠ [] := by
    intro hnil
    rw [hnil] at hktrim
    simp at hktrim
    exact hkw hktrim
  obtain ⟨d, trim2, hdeq⟩ : ∃ d trim2, trim = d :: trim2 := by
    cases hcase : trim with
    | nil => exact absurd hcase htrimne
    | cons d trim2 => exact ⟨d, trim2, rfl⟩
  have hdt : t = d :: (trim2 ++ trail) := by
    rw [← htt, hdeq]
    rfl
  have hdws : isSpaceChar d = false :=
    dropWhile_head_not (p := isSpaceChar) (l := s) (by rw [← ht]; exact hdt)
  -- the normalized string needs no further leading-whitespace stripping
  have hdrw : (jsToLower trim).dropWhile isSpaceChar = jsToLower trim := by
    rw [hdeq]
    simp only [jsToLower, List.map_cons, List.dropWhile_cons]
    rw [if_neg]
    simp [isSpaceChar_toLower, hdws]
  -- the character after the keyword (if any) is a non-word character
  have hafter : bAfter ((jsToLower trim).drop kw.length) = true := by
    rcases Nat.eq_or_lt_of_le hktrim with heq | hlt
    · have : (jsToLower trim).drop kw.length = [] := by
        apply List.drop_eq_nil_of_le
        simp [jsToLower, ← heq]
      rw [this]
      rfl
    · obtain ⟨e, tr2, hetr⟩ : ∃ e tr2, trim.drop kw.length = e :: tr2 := by
        cases hcase : trim.drop kw.length with
        | nil =>
          have := congrArg List.length hcase
          simp only [List.length_drop, List.length_nil] at this
          omega
        | cons e tr2 => exact ⟨e, tr2, rfl⟩
      have hdropt : t.drop kw.length = e :: (tr2 ++ trail) := by
        rw [← htt, List.drop_append_of_le_length hktrim, hetr]
        rfl
      rw [hdropt] at h2
      have he : isWordChar e = false := by
        simpa [bAfter] using h2
      have : (jsToLower trim).drop kw.length = e.toLower :: jsToLower tr2 := by
        simp only [jsToLower, ← List.map_drop, hetr, List.map_cons]
      rw [this]
      simp [bAfter, isWordChar_toLower, he]
  rw [hnorm]
  simp only [anchorRead, Bool.and_eq_true, hdrw]
  exact ⟨hpre, hafter⟩

theorem ciAnchorKw_ne_nil {kw s : List Char} (hkw : kw ≠ [])
    (h : ciAnchorKw kw s = true) : s ≠ [] := by
  intro hnil
  subst hnil
  simp only [ciAnchorKw, Bool.and_eq_true, beq_iff_eq] at h
  exact hkw (by simpa [jsToLower] using h.1.symm)

theorem beginsRead_anchor {s : List Char} (h : beginsWithReadKeyword s = true) :
    anyReadAnchor (normalizeSql s) = true ∧ s ≠ [] := by
  simp only [beginsWithReadKeyword, readKeywords, List.any_eq_true,
    List.mem_cons, List.not_mem_nil, or_false] at h
  obtain ⟨kw, hmem, hanch⟩ := h
  have hor : ∀ kw2, kw2 ∈ readKeywords → ciAnchorKw kw2 s = true →
      kw2 ≠ [] → (∀ c ∈ kw2, isSpaceChar c = false) →
      anyReadAnchor (normalizeSql s) = true := by
    intro kw2 hmem2 hanch2 hne hws
    have := ciAnchor_anchorRead hne hws hanch2
    simp only [readKeywords, List.mem_cons, List.not_mem_nil, or_false] at hmem2
    simp only [anyReadAnchor, Bool.or_eq_true]
    rcases hmem2 with rfl | rfl | rfl | rfl
    · exact Or.inl (Or.inl (Or.inl this))
    · exact Or.inl (Or.inl (Or.inr this))
    · exact Or.inl (Or.inr this)
    · exact Or.inr this
  rcases hmem with rfl | rfl | rfl | rfl
  · exact ⟨hor _ (by simp [readKeywords]) hanch (by decide) (by decide),
      ciAnchorKw_ne_nil (by decide) hanch⟩
  · exact ⟨hor _ (by simp [readKeywords]) hanch (by decide) (by decide),
      ciAnchorKw_ne_nil (by decide) hanch⟩
  · exact ⟨hor _ (by simp [readKeywords]) hanch (by decide) (by decide),
      ciAnchorKw_ne_nil (by decide) hanch⟩
  · exact ⟨hor _ (by simp [readKeywords]) hanch (by decide) (by decide),
      ciAnchorKw_ne_nil (by decide) hanch⟩

/-- C1 (counterexample): `select 1; drop role admin` contains the top-level
write keyword `DROP` at a word boundary (case-insensitively), yet
`isReadOnly` returns `true` — the write patterns require `drop` to be
followed by one of eight object keywords, and `role` is not among them, while
the string is anchored by `select`.  The claim predicts `false`. -/
theorem c1_counterexample :
    containsWriteKeyword ("select 1; drop role admin").toList = true ∧
    isReadOnly (some ("select 1; drop role admin").toList) = true := by
  constructor
  · decide
  · decide

/-- C1 (amended): for every SQL string on which one of the nine
write-operation *patterns* of the source matches (`insert into`,
`update ... set` on one line, `delete from`, `truncate table`,
`drop`/`alter`/`create` followed by whitespace and an object keyword,
`grant`, `revoke` — word-boundary, case-insensitive, on the trimmed string),
`isReadOnly` returns `false`. -/
theorem c1_write_pattern_not_readOnly :
    ∀ s : List Char, anyWritePattern (normalizeSql s) = true →
      isReadOnly (some s) = false := by
  intro s h
  have hne : s.isEmpty = false := by
    cases hcase : s.isEmpty
    · rfl
    · rw [List.isEmpty_iff] at hcase
      subst hcase
      exact absurd h (by decide)
  simp only [isReadOnly]
  rw [if_neg (by simp [hne])]
  simp [h]

/-- Witness for the amended C1 theorem at a concrete input. -/
theorem c1_witness :
    anyWritePattern (normalizeSql ("DELETE FROM users").toList) = true ∧
    isReadOnly (some ("DELETE FROM users").toList) = false :=
  ⟨by decide, c1_write_pattern_not_readOnly _ (by decide)⟩

/-- C2: a SQL string that (after leading whitespace) begins with `SELECT`,
`SHOW`, `DESCRIBE` or `EXPLAIN` as a whole word (case-insensitively) and
contains none of the nine write-operation keywords at a word boundary is
classified read-only; `null`/non-string input yields `false`; and any
statement shape matching neither the write patterns nor the read anchors
yields `false` (fail-closed default). -/
theorem c2_isReadOnly_characterization :
    (∀ s : List Char, beginsWithReadKeyword s = true →
      containsWriteKeyword s = false → isReadOnly (some s) = true) ∧
    isReadOnly none = false ∧
    (∀ s : List Char, anyWritePattern (normalizeSql s) = false →
      anyReadAnchor (normalizeSql s) = false → isReadOnly (some s) = false) := by
  refine ⟨?_, rfl, ?_⟩
  · intro s hread hwrite
    obtain ⟨hanchor, hne⟩ := beginsRead_anchor hread
    have hwp : anyWritePattern (normalizeSql s) = false := by
      cases hcase : anyWritePattern (normalizeSql s)
      · rfl
      · rw [containsWriteKeyword_of_anyWritePattern hcase] at hwrite
        exact absurd hwrite (by simp)
    simp only [isReadOnly]
    rw [if_neg (by simp [List.isEmpty_iff]; exact hne)]
    simp [hwp, hanchor]
  · intro s hw hr
    simp only [isReadOnly]
    by_cases hse : s.isEmpty = true
    · rw [if_pos hse]
    · rw [if_neg hse]
      simp [hw, hr]

/-- Witness for the C2 theorem at concrete inputs. -/
theorem c2_witness :
    beginsWithReadKeyword ("  SELECT id FROM users ").toList = true ∧
    containsWriteKeyword ("  SELECT id FROM users ").toList = false ∧
    isReadOnly (some ("  SELECT id FROM users ").toList) = true ∧
    anyWritePattern (normalizeSql ("do something").toList) = false ∧
    anyReadAnchor (normalizeSql ("do something").toList) = false ∧
    isReadOnly (some ("do something").toList) = false :=
  ⟨by decide, by decide,
    c2_isReadOnly_characterization.1 _ (by decide) (by decide),
    by decide, by decide,
    c2_isReadOnly_characterization.2.2 _ (by decide) (by decide)⟩

theorem validateQuery_some_of_ne {s : List Char} (hne : s.isEmpty = false) :
    validateQuery (some s) =
      ⟨((if !(isReadOnly (some s)) then [msgReadOnlyQueries] else []) ++
        (if containsDashDash s then [msgNoComments] else []) ++
        (if hasMultipleStatements s then [msgNoMultiStmts] else []) ++
        (if hasUnsafeFunction s then [msgUnsafeFns] else [])).isEmpty,
       (if !(isReadOnly (some s)) then [msgReadOnlyQueries] else []) ++
        (if containsDashDash s then [msgNoComments] else []) ++
        (if hasMultipleStatements s then [msgNoMultiStmts] else []) ++
        (if hasUnsafeFunction s then [msgUnsafeFns] else [])⟩ := by
  simp only [validateQuery]
  rw [if_neg (by simp [hne])]

/-- C3: `validateQuery` reports `isValid` exactly when its error collection
is empty; a query containing a `--` line-comment marker anywhere is invalid
with the `SQL comments are not allowed` message among its errors; and a
query containing a semicolon followed by another statement is invalid with
the `Multiple SQL statements are not allowed` message among its errors. -/
theorem c3_validateQuery_isValid_iff_errors_empty :
    (∀ x : Option (List Char),
      (validateQuery x).isValid = true ↔ (validateQuery x).errors = []) ∧
    (∀ s : List Char, containsDashDash s = true →
      (validateQuery (some s)).isValid = false ∧
      msgNoComments ∈ (validateQuery (some s)).errors) ∧
    (∀ s : List Char, hasMultipleStatements s = true →
      (validateQuery (some s)).isValid = false ∧
      msgNoMultiStmts ∈ (validateQuery (some s)).errors) := by
  refine ⟨?_, ?_, ?_⟩
  · intro x
    cases x with
    | none => simp [validateQuery]
    | some s =>
      by_cases hse : s.isEmpty = true
      · simp [validateQuery, hse]
      · rw [validateQuery_some_of_ne (by simpa using hse)]
        exact List.isEmpty_iff
  · intro s hdd
    have hne : s.isEmpty = false := by
      cases hcase : s.isEmpty
      · rfl
      · rw [List.isEmpty_iff] at hcase
        subst hcase
        exact absurd hdd (by decide)
    rw [validateQuery_some_of_ne hne]
    have hmem : msgNoComments ∈
        (if !(isReadOnly (some s)) then [msgReadOnlyQueries] else []) ++
        (if containsDashDash s then [msgNoComments] else []) ++
        (if hasMultipleStatements s then [msgNoMultiStmts] else []) ++
        (if hasUnsafeFunction s then [msgUnsafeFns] else []) := by
      simp [hdd]
    refine ⟨?_, hmem⟩
    cases hcase : ((if !(isReadOnly (some s)) then [msgReadOnlyQueries] else []) ++
        (if containsDashDash s then [msgNoComments] else []) ++
        (if hasMultipleStatements s then [msgNoMultiStmts] else []) ++
        (if hasUnsafeFunction s then [msgUnsafeFns] else [])).isEmpty
    · rfl
    · rw [List.isEmpty_iff] at hcase
      rw [hcase] at hmem
      exact absurd hmem (by simp)
  · intro s hms
    have hne : s.isEmpty = false := by
      cases hcase : s.isEmpty
      · rfl
      · rw [List.isEmpty_iff] at hcase
        subst hcase
        exact absurd hms (by decide)
    rw [validateQuery_some_of_ne hne]
    have hmem : msgNoMultiStmts ∈
        (if !(isReadOnly (some s)) then [msgReadOnlyQueries] else []) ++
        (if containsDashDash s then [msgNoComments] else []) ++
        (if hasMultipleStatements s then [msgNoMultiStmts] else []) ++
        (if hasUnsafeFunction s then [msgUnsafeFns] else []) := by
      simp [hms]
    refine ⟨?_, hmem⟩
    cases hcase : ((if !(isReadOnly (some s)) then [msgReadOnlyQueries] else []) ++
        (if containsDashDash s then [msgNoComments] else []) ++
        (if hasMultipleStatements s then [msgNoMultiStmts] else []) ++
        (if hasUnsafeFunction s then [msgUnsafeFns] else [])).isEmpty
    · rfl
    · rw [List.isEmpty_iff] at hcase
      rw [hcase] at hmem
      exact absurd hmem (by simp)

/-- Witness for the C3 theorem at the specification's own examples. -/
theorem c3_witness :
    containsDashDash ("SELECT * FROM t -- comment").toList = true ∧
    ((validateQuery (some ("SELECT * FROM t -- comment").toList)).isValid = false ∧
      msgNoComments ∈
        (validateQuery (some ("SELECT * FROM t -- comment").toList)).errors) ∧
    hasMultipleStatements ("SELECT 1; DROP TABLE users").toList = true ∧
    ((validateQuery (some ("SELECT 1; DROP TABLE users").toList)).isValid = false ∧
      msgNoMultiStmts ∈
        (validateQuery (some ("SELECT 1; DROP TABLE users").toList)).errors) :=
  ⟨by decide,
   c3_validateQuery_isValid_iff_errors_empty.2.1 _ (by decide),
   by decide,
   c3_validateQuery_isValid_iff_errors_empty.2.2 _ (by decide)⟩

theorem checkParamsFrom_ok_iff :
    ∀ (ps : List JsParam) (i : Nat),
      checkParamsFrom i ps = .ok () ↔ ps.all paramOk = true := by
  intro ps
  induction ps with
  | nil => intro i; simp [checkParamsFrom]
  | cons p rest ih =>
    intro i
    cases p with
    | jnull => simp [checkParamsFrom, paramOk]
    | jundefined => simp [checkParamsFrom, paramOk]
    | jobject => simp [checkParamsFrom, paramOk]
    | jarray => simp [checkParamsFrom, paramOk]
    | jstr s =>
      by_cases hd : dangerousParamString s = true
      · simp [checkParamsFrom, paramOk, hd]
      · rw [Bool.not_eq_true] at hd
        simp [checkParamsFrom, paramOk, hd, ih]
    | jnum n => simp [checkParamsFrom, paramOk, ih]
    | jbool b => simp [checkParamsFrom, paramOk, ih]

/-- C4 (counterexample): the claim says all violations are collected without
short-circuiting, and that the raw SQL is scanned independently of the
parameter checks.  Here the SQL contains the dangerous keyword `drop` and
the parameter at index 0 contains `--`, yet only the (first) parameter
violation is reported: the function throws at the first violated check. -/
theorem c4_counterexample :
    validateQueryInput (some ("select * from t where drop").toList)
      (some [.jstr ("x--y").toList]) = .error (paramDangerMsg 0) ∧
    (dangerousOperations.any fun op =>
      containsSub op (jsToLower ("select * from t where drop").toList)) = true ∧
    paramDangerMsg 0 ≠ msgWriteOps := by
  refine ⟨by rfl, by decide, by decide⟩

/-- C4 (amended): `validateQueryInput` succeeds exactly when the query is a
non-empty string, every bind parameter is a scalar (non-null, non-undefined,
non-composite) whose string values are free of the dangerous patterns, the
lowercased SQL contains no semicolon, and the lowercased SQL contains none of
the seven dangerous-operation substrings; on the first violated check (in
source order) it throws that check's single error without evaluating the
remaining checks. -/
theorem c4_validateQueryInput_ok_iff :
    ∀ (q : List Char) (ps : List JsParam),
      validateQueryInput (some q) (some ps) = .ok () ↔
        (q.isEmpty = false ∧ ps.all paramOk = true ∧
          (jsToLower q).contains ';' = false ∧
          (dangerousOperations.any fun op => containsSub op (jsToLower q)) = false) := by
  intro q ps
  simp only [validateQueryInput]
  by_cases hq : q.isEmpty = true
  · simp [hq]
  · rw [if_neg hq]
    rw [Bool.not_eq_true] at hq
    cases hcp : checkParamsFrom 0 ps with
    | error e =>
      have hall : ¬(ps.all paramOk = true) := by
        intro hc
        rw [(checkParamsFrom_ok_iff ps 0).mpr hc] at hcp
        exact Except.noConfusion hcp
      simp [hq, hall]
    | ok u =>
      cases u
      have hall : ps.all paramOk = true := (checkParamsFrom_ok_iff ps 0).mp hcp
      by_cases hsemi : ';' ∈ jsToLower q
      · simp [hq, hall, hsemi]
      · by_cases hops : ∃ x ∈ dangerousOperations, containsSub x (jsToLower q) = true
        · simp [hq, hall, hsemi, hops]
        · push_neg at hops
          simp only [Bool.not_eq_true] at hops
          simp [hq, hall, hsemi, hops]

/-- Witness for the amended C4 theorem at a concrete input. -/
theorem c4_witness :
    validateQueryInput (some ("select x from t").toList)
      (some [.jnum 3, .jbool true, .jstr ("abc").toList]) = .ok () :=
  (c4_validateQueryInput_ok_iff _ _).mpr (by decide)

/-- C5 (counterexample): no single translation path realizes the claimed
table.  The root service's middleware routes the connection-class code
`28000` (a 5-character alphanumeric code) through `handleDatabaseError`,
which yields `DATABASE_ERROR` with HTTP 500 — not the claimed 503; and the
mcp-psql middleware, the only place producing the 503, does not apply the
nine-code table: the enumerated code `42P01` yields
`INTERNAL_SERVER_ERROR`/500 there — not the claimed `NOT_FOUND`/404. -/
theorem c5_counterexample :
    errorMiddlewareSrc (.raw (some (("28000").toList))) = (.databaseError, 500) ∧
    (ErrKind.databaseError, 500) ≠ (ErrKind.databaseError, 503) ∧
    errorMiddlewareMcp (.raw (some (("42P01").toList))) = (.internalServerError, 500) ∧
    (ErrKind.internalServerError, 500) ≠ (ErrKind.notFound, 404) := by
  refine ⟨by decide, by decide, by decide, by decide⟩

/-- C5 (amended): `handleDatabaseError` maps each of the nine enumerated
backend codes to exactly the table's (kind, HTTP status) pair and every other
code — including connection-class `28*` codes — to the generic
`DATABASE_ERROR`/500; the `DATABASE_ERROR`/503 response for connection-class
prefixes exists only in the mcp-psql middleware, which does not consult the
nine-code table and returns `INTERNAL_SERVER_ERROR`/500 for every other raw
code. -/
theorem c5_error_translation :
    (handleDatabaseError (some (("42P01").toList)) = (.notFound, 404) ∧
     handleDatabaseError (some (("42P04").toList)) = (.validationError, 400) ∧
     handleDatabaseError (some (("42501").toList)) = (.authorizationError, 403) ∧
     handleDatabaseError (some (("42601").toList)) = (.validationError, 400) ∧
     handleDatabaseError (some (("42703").toList)) = (.validationError, 400) ∧
     handleDatabaseError (some (("42P20").toList)) = (.validationError, 400) ∧
     handleDatabaseError (some (("22P02").toList)) = (.validationError, 400) ∧
     handleDatabaseError (some (("23505").toList)) = (.validationError, 400) ∧
     handleDatabaseError (some (("57014").toList)) = (.validationError, 400)) ∧
    (∀ c : List Char, pgErrorMapLookup c = none →
      handleDatabaseError (some c) = (.databaseError, 500)) ∧
    (∀ c : List Char, c ≠ [] → ("28").toList.isPrefixOf c = true →
      errorMiddlewareMcp (.raw (some c)) = (.databaseError, 503)) ∧
    (∀ c : List Char, ("28").toList.isPrefixOf c = false →
      errorMiddlewareMcp (.raw (some c)) = (.internalServerError, 500)) := by
  refine ⟨by decide, ?_, ?_, ?_⟩
  · intro c hl
    simp only [handleDatabaseError]
    by_cases hce : c.isEmpty = true
    · rw [if_pos hce]
    · rw [if_neg hce, hl]
  · intro c hne hpre
    have hce : c.isEmpty = false := by
      simp [List.isEmpty_iff, hne]
    simp only [errorMiddlewareMcp]
    rw [if_pos (show (!(c.isEmpty) && ("28").toList.isPrefixOf c) = true by
      rw [hce, hpre]; rfl)]
  · intro c hpre
    simp only [errorMiddlewareMcp]
    rw [if_neg (show ¬((!(c.isEmpty) && ("28").toList.isPrefixOf c) = true) by
      rw [hpre]; simp)]

/-- Witness for the amended C5 theorem at concrete codes. -/
theorem c5_witness :
    pgErrorMapLookup ("XX000").toList = none ∧
    handleDatabaseError (some (("XX000").toList)) = (.databaseError, 500) ∧
    errorMiddlewareMcp (.raw (some (("28P01").toList))) = (.databaseError, 503) ∧
    errorMiddlewareMcp (.raw (some (("42P01").toList))) = (.internalServerError, 500) :=
  ⟨by decide, c5_error_translation.2.1 _ (by decide),
   c5_error_translation.2.2.1 _ (by decide) (by decide),
   c5_error_translation.2.2.2 _ (by decide)⟩

/-- C6: a connection-class failure (ECONNREFUSED, ETIMEDOUT, or a `28*`
backend code) with the attempt counter below `maxRetries` makes the
connector wait a fixed `retryDelay` (5000 ms, not exponential), increment
the counter, and retry; two connection-refused attempts followed by a
success return the successful result after exactly `2 * retryDelay`
milliseconds of back-off, and a non-connection failure is never retried. -/
theorem c6_retry_on_connection_error :
    (∀ (code : Option (List Char)) (msg : List Char)
        (rest : List AttemptResult) (n : Nat),
      isConnectionError code = true → n < maxRetries →
      dcQuery (.fail code msg :: rest) n =
        (retryDelay + (dcQuery rest (n + 1)).1, (dcQuery rest (n + 1)).2)) ∧
    (∀ (msg1 msg2 : List Char) (r : Nat),
      dcQuery [.fail (some (("ECONNREFUSED").toList)) msg1,
               .fail (some (("ECONNREFUSED").toList)) msg2, .ok r] 0 =
        (2 * retryDelay, .ok r)) ∧
    (∀ (code : Option (List Char)) (msg : List Char)
        (rest : List AttemptResult) (n : Nat),
      isConnectionError code = false →
      dcQuery (.fail code msg :: rest) n = (0, .error ⟨500, msg⟩)) := by
  refine ⟨?_, ?_, ?_⟩
  · intro code msg rest n hconn hn
    simp only [dcQuery]
    rw [if_pos (by simp [hconn, hn])]
  · intro msg1 msg2 r
    rfl
  · intro code msg rest n hconn
    simp only [dcQuery]
    rw [if_neg (by simp [hconn])]

/-- Witness for the C6 theorem at concrete attempt outcomes. -/
theorem c6_witness :
    isConnectionError (some (("ETIMEDOUT").toList)) = true ∧ 0 < maxRetries ∧
    dcQuery [.fail (some (("ETIMEDOUT").toList)) (("t").toList)] 0 =
      (retryDelay + (dcQuery [] 1).1, (dcQuery [] 1).2) ∧
    isConnectionError (some (("42601").toList)) = false ∧
    dcQuery [.fail (some (("42601").toList)) (("m").toList)] 0 =
      (0, .error ⟨500, ("m").toList⟩) :=
  ⟨by decide, by decide,
   c6_retry_on_connection_error.1 _ _ _ _ (by decide) (by decide),
   by decide,
   c6_retry_on_connection_error.2.2 _ _ _ _ (by decide)⟩

/-- C7: `executeQuery` issues `SET statement_timeout TO <timeoutMs>` on the
acquired connection before running the query (a server-side per-statement
timeout), and a backend failure whose message contains the
`statement timeout` signature is reported as the distinct
`Query execution timed out` validation error, with the query having been
sent exactly once (never retried). -/
theorem c7_statement_timeout :
    (∀ (maxRows timeout : Nat) (sql : List Char) (oc : ModelOutcome),
      (executeQueryModel maxRows timeout sql oc).1.take 2 =
        [.acquire, .runSql (setTimeoutSql timeout)]) ∧
    (∀ (maxRows timeout : Nat) (sql : Option (List Char)) (msg : List Char),
      (validateQuery sql).isValid = true →
      containsSub stmtTimeoutSig msg = true →
      (providerExecuteQuery maxRows timeout sql (.fail msg)).2 =
        .error (.validationError msgTimedOut) ∧
      countRunSql (providerExecuteQuery maxRows timeout sql (.fail msg)).1 = 2) := by
  constructor
  · intro mr t sql oc
    cases oc <;> rfl
  · intro mr t sql msg hval htm
    simp only [providerExecuteQuery]
    rw [if_neg (by simp [hval])]
    simp only [executeQueryModel]
    rw [if_pos htm]
    refine ⟨rfl, ?_⟩
    simp [countRunSql, List.countP_cons]

/-- Witness for the C7 theorem at a concrete timed-out query. -/
theorem c7_witness :
    (validateQuery (some (("SELECT pg_sleep_forever FROM t").toList))).isValid = true ∧
    containsSub stmtTimeoutSig
      (("canceling statement due to statement timeout").toList) = true ∧
    ((providerExecuteQuery 10000 30000
        (some (("SELECT pg_sleep_forever FROM t").toList))
        (.fail (("canceling statement due to statement timeout").toList))).2 =
      .error (.validationError msgTimedOut) ∧
     countRunSql (providerExecuteQuery 10000 30000
        (some (("SELECT pg_sleep_forever FROM t").toList))
        (.fail (("canceling statement due to statement timeout").toList))).1 = 2) :=
  ⟨by decide, by decide,
   c7_statement_timeout.2 _ _ _ _ (by decide) (by decide)⟩

/-- C8: on a successful execution the returned rows are the first
`maxRowsReturned` of the true result set (so their number is the minimum of
the cap and the true count), `rowCount` reports the untruncated true count,
and `rowsLimited` is set exactly when the true count exceeds the cap; in
particular 15000 result rows under a cap of 10000 yield 10000 returned rows,
`rowCount` 15000 and `rowsLimited` true. -/
theorem c8_row_truncation :
    (∀ (maxRows timeout : Nat) (sql : List Char) (rows : List Nat)
        (fields : List PgField) (er : ExecResult),
      (executeQueryModel maxRows timeout sql (.ok rows fields)).2 = .ok er →
      er.rows.length = min maxRows rows.length ∧
      er.rowCount = rows.length ∧
      (er.rowsLimited = true ↔ rows.length > maxRows)) ∧
    (∃ er : ExecResult,
      (executeQueryModel 10000 30000 (("SELECT * FROM big").toList)
        (.ok (List.range 15000) [])).2 = .ok er ∧
      er.rows.length = 10000 ∧ er.rowCount = 15000 ∧ er.rowsLimited = true) := by
  constructor
  · intro mr t sql rows fields er her
    simp only [executeQueryModel, Except.ok.injEq] at her
    subst her
    refine ⟨by simp [List.length_take], rfl, by simp⟩
  · refine ⟨_, rfl, ?_, ?_, ?_⟩
    · simp [List.length_take, List.length_range]
    · simp [List.length_range]
    · simp [List.length_range]

/-- Witness for the C8 theorem at a concrete three-row result with cap 2. -/
theorem c8_witness :
    (executeQueryModel 2 30000 (("q").toList) (.ok [5, 6, 7] [])).2 =
      .ok ⟨[5, 6], 3, [], true, 3, 2⟩ ∧
    ((⟨[5, 6], 3, [], true, 3, 2⟩ : ExecResult).rows.length = min 2 3 ∧
     (⟨[5, 6], 3, [], true, 3, 2⟩ : ExecResult).rowCount = 3 ∧
     ((⟨[5, 6], 3, [], true, 3, 2⟩ : ExecResult).rowsLimited = true ↔ 3 > 2)) :=
  ⟨by rfl, c8_row_truncation.1 2 30000 (("q").toList) [5, 6, 7] [] _ (by rfl)⟩

/-- C9 (counterexample): the claim says every call to execute — including a
validation failure — performs exactly one pool acquire; but a validation
failure throws before the model is reached, so no connection is acquired at
all. -/
theorem c9_counterexample :
    countAcquire (providerExecuteQuery 10000 30000
      (some (("DROP TABLE users").toList)) (.ok [] [])).1 = 0 ∧
    countRelease (providerExecuteQuery 10000 30000
      (some (("DROP TABLE users").toList)) (.ok [] [])).1 = 0 := by
  exact ⟨rfl, rfl⟩

theorem executeQueryModel_balance (maxRows timeout : Nat) (sql : List Char)
    (oc : ModelOutcome) :
    countAcquire (executeQueryModel maxRows timeout sql oc).1 = 1 ∧
    countRelease (executeQueryModel maxRows timeout sql oc).1 = 1 := by
  cases oc <;> exact ⟨rfl, rfl⟩

/-- C9 (amended): every execution that reaches the model performs exactly one
acquire paired with exactly one release, the release on every exit path
(success, failed `SET`, failed query, timeout); a call rejected by
validation performs zero acquires and zero releases — no connection is ever
leaked or double-released. -/
theorem c9_acquire_release_balance :
    (∀ (maxRows timeout : Nat) (sql : List Char) (oc : ModelOutcome),
      countAcquire (executeQueryModel maxRows timeout sql oc).1 = 1 ∧
      countRelease (executeQueryModel maxRows timeout sql oc).1 = 1) ∧
    (∀ (maxRows timeout : Nat) (sql : Option (List Char)) (oc : ModelOutcome),
      (validateQuery sql).isValid = true →
      countAcquire (providerExecuteQuery maxRows timeout sql oc).1 = 1 ∧
      countRelease (providerExecuteQuery maxRows timeout sql oc).1 = 1) ∧
    (∀ (maxRows timeout : Nat) (sql : Option (List Char)) (oc : ModelOutcome),
      (validateQuery sql).isValid = false →
      countAcquire (providerExecuteQuery maxRows timeout sql oc).1 = 0 ∧
      countRelease (providerExecuteQuery maxRows timeout sql oc).1 = 0) := by
  refine ⟨?_, ?_, ?_⟩
  · intro mr t sql oc
    exact executeQueryModel_balance mr t sql oc
  · intro mr t sql oc hval
    have htr : (providerExecuteQuery mr t sql oc).1 =
        (executeQueryModel mr t (sanitizeQuery sql) oc).1 := by
      simp only [providerExecuteQuery]
      rw [if_neg (by simp [hval])]
      cases oc with
      | setFails msg =>
        simp only [executeQueryModel]
        split <;> rfl
      | fail msg =>
        simp only [executeQueryModel]
        split <;> rfl
      | ok rows fields => rfl
    rw [htr]
    exact executeQueryModel_balance mr t (sanitizeQuery sql) oc
  · intro mr t sql oc hval
    simp only [providerExecuteQuery]
    rw [if_pos (by simp [hval])]
    exact ⟨rfl, rfl⟩

/-- Witness for the amended C9 theorem at a valid and an invalid query. -/
theorem c9_witness :
    ((validateQuery (some (("SELECT 1").toList))).isValid = true ∧
      countAcquire (providerExecuteQuery 10 20 (some (("SELECT 1").toList))
        (.fail (("e").toList))).1 = 1 ∧
      countRelease (providerExecuteQuery 10 20 (some (("SELECT 1").toList))
        (.fail (("e").toList))).1 = 1) ∧
    ((validateQuery (some (("DROP TABLE t").toList))).isValid = false ∧
      countAcquire (providerExecuteQuery 10 20 (some (("DROP TABLE t").toList))
        (.ok [] [])).1 = 0 ∧
      countRelease (providerExecuteQuery 10 20 (some (("DROP TABLE t").toList))
        (.ok [] [])).1 = 0) :=
  ⟨⟨by decide,
    (c9_acquire_release_balance.2.1 10 20 _ _ (by decide)).1,
    (c9_acquire_release_balance.2.1 10 20 _ _ (by decide)).2⟩,
   ⟨by decide,
    (c9_acquire_release_balance.2.2 10 20 _ _ (by decide)).1,
    (c9_acquire_release_balance.2.2 10 20 _ _ (by decide)).2⟩⟩

theorem containsDashDash_cons {c : Char} {z : List Char}
    (h : containsDashDash (c :: z) = false) : containsDashDash z = false := by
  cases z with
  | nil => rfl
  | cons d r =>
    simp only [containsDashDash, Bool.or_eq_false_iff] at h
    exact h.2

theorem containsDashDash_cons_of {c : Char} {z : List Char}
    (hz : containsDashDash z = false)
    (hh : c = '-' → headIsDash z = false) :
    containsDashDash (c :: z) = false := by
  cases z with
  | nil => rfl
  | cons d r =>
    simp only [containsDashDash, Bool.or_eq_false_iff]
    refine ⟨?_, hz⟩
    by_cases hc : c = '-'
    · have := hh hc
      simp only [headIsDash] at this
      simp [this]
    · simp [hc]

theorem headIsDash_removeLCAux_true :
    ∀ s : List Char, headIsDash (removeLCAux true s) = false := by
  intro s
  induction s with
  | nil => rfl
  | cons c rest ih =>
    simp only [removeLCAux]
    by_cases hc : c = '\n' ∨ c = '\r'
    · rw [if_pos (by rcases hc with rfl | rfl <;> rfl)]
      rcases hc with rfl | rfl <;> rfl
    · push_neg at hc
      rw [if_neg (by simp [hc.1, hc.2])]
      exact ih

theorem headIsDash_removeLCAux_false {s : List Char}
    (h : headIsDash s = false) : headIsDash (removeLCAux false s) = false := by
  cases s with
  | nil => rfl
  | cons c rest =>
    simp only [headIsDash] at h
    simp only [removeLCAux]
    rw [if_neg (by simp [h])]
    simp [headIsDash, h]

theorem removeLCAux_no_dd :
    ∀ s : List Char, containsDashDash (removeLCAux true s) = false ∧
      containsDashDash (removeLCAux false s) = false := by
  intro s
  induction s with
  | nil => exact ⟨rfl, rfl⟩
  | cons c rest ih =>
    constructor
    · simp only [removeLCAux]
      by_cases hc : c = '\n' ∨ c = '\r'
      · rw [if_pos (by rcases hc with rfl | rfl <;> rfl)]
        refine containsDashDash_cons_of ih.2 ?_
        intro hdash
        rcases hc with rfl | rfl <;> exact absurd hdash (by decide)
      · push_neg at hc
        rw [if_neg (by simp [hc.1, hc.2])]
        exact ih.1
    · simp only [removeLCAux]
      by_cases hcd : (c == '-' && headIsDash rest) = true
      · rw [if_pos hcd]
        exact ih.1
      · rw [if_neg hcd]
        refine containsDashDash_cons_of ih.2 ?_
        intro hdash
        have hrest : headIsDash rest = false := by
          simp only [Bool.and_eq_true, beq_iff_eq] at hcd
          cases hcase : headIsDash rest
          · rfl
          · exact absurd ⟨hdash, hcase⟩ hcd
        exact headIsDash_removeLCAux_false hrest

theorem removeLCAux_id {s : List Char} (h : containsDashDash s = false) :
    removeLCAux false s = s := by
  induction s with
  | nil => rfl
  | cons c rest ih =>
    have hcd : (c == '-' && headIsDash rest) = false := by
      cases rest with
      | nil => simp [headIsDash]
      | cons d r =>
        simp only [containsDashDash, Bool.or_eq_false_iff] at h
        simpa [headIsDash] using h.1
    simp only [removeLCAux]
    rw [if_neg (by simp [hcd])]
    rw [ih (containsDashDash_cons h)]

theorem containsDashDash_append_after {x y : List Char}
    (h : containsDashDash (x ++ y) = false) : containsDashDash y = false := by
  induction x with
  | nil => simpa using h
  | cons c x2 ih => exact ih (containsDashDash_cons h)

theorem containsDashDash_append_before {x y : List Char}
    (h : containsDashDash (x ++ y) = false) : containsDashDash x = false := by
  induction x with
  | nil => rfl
  | cons a x2 ih =>
    cases x2 with
    | nil => rfl
    | cons b r =>
      simp only [List.cons_append, containsDashDash, Bool.or_eq_false_iff] at h ⊢
      exact ⟨h.1, by simpa using ih (by simpa using h.2)⟩

theorem containsDashDash_takeWhile {q : Char → Bool} {l : List Char}
    (h : containsDashDash l = false) :
    containsDashDash (l.takeWhile q) = false := by
  have := List.takeWhile_append_dropWhile (p := q) (l := l)
  exact containsDashDash_append_before (by rw [this]; exact h)

theorem containsDashDash_jsTrim {l : List Char}
    (h : containsDashDash l = false) :
    containsDashDash (jsTrim l) = false := by
  have h1 : containsDashDash (l.dropWhile isSpaceChar) = false := by
    have := List.takeWhile_append_dropWhile (p := isSpaceChar) (l := l)
    exact containsDashDash_append_after (by rw [this]; exact h)
  have h2 := rdropWhile_append_rtakeWhile isSpaceChar (l.dropWhile isSpaceChar)
  apply containsDashDash_append_before
    (y := (l.dropWhile isSpaceChar).rtakeWhile isSpaceChar)
  simp only [jsTrim]
  rw [h2]
  exact h1

theorem mem_jsTrim {x : Char} {l : List Char} (h : x ∈ jsTrim l) : x ∈ l := by
  have h1 : x ∈ l.dropWhile isSpaceChar := by
    have hp := List.rdropWhile_prefix (l := l.dropWhile isSpaceChar) isSpaceChar
    exact hp.subset h
  have hs := List.dropWhile_suffix (l := l) isSpaceChar
  exact hs.subset h1

theorem sanitize_no_dd (s : List Char) :
    containsDashDash (sanitizeQuery (some s)) = false := by
  simp only [sanitizeQuery]
  by_cases hse : s.isEmpty = true
  · rw [if_pos hse]; rfl
  · rw [if_neg hse]
    exact containsDashDash_jsTrim
      (containsDashDash_takeWhile (removeLCAux_no_dd s).2)

theorem sanitize_no_semi (s : List Char) :
    (sanitizeQuery (some s)).contains ';' = false := by
  simp only [sanitizeQuery]
  by_cases hse : s.isEmpty = true
  · rw [if_pos hse]; rfl
  · rw [if_neg hse]
    cases hcase : (jsTrim ((removeLineComments s).takeWhile
        fun c => !(c == ';'))).contains ';'
    · rfl
    · exfalso
      have hmem : (';' : Char) ∈ jsTrim ((removeLineComments s).takeWhile
          fun c => !(c == ';')) := by
        simpa using hcase
      have := List.mem_takeWhile_imp (mem_jsTrim hmem)
      simp at this

theorem dropWhile_jsTrim (l : List Char) :
    (jsTrim l).dropWhile isSpaceChar = jsTrim l := by
  cases hcase : jsTrim l with
  | nil => rfl
  | cons d w =>
    have hd : isSpaceChar d = false := by
      have hp := List.rdropWhile_prefix (l := l.dropWhile isSpaceChar) isSpaceChar
      obtain ⟨u, hu⟩ := hp
      rw [jsTrim] at hcase
      rw [hcase] at hu
      exact dropWhile_head_not (p := isSpaceChar) (l := l) hu.symm
    rw [List.dropWhile_cons, if_neg (by simp [hd])]

theorem jsTrim_idem (l : List Char) : jsTrim (jsTrim l) = jsTrim l := by
  have h1 : (jsTrim l).dropWhile isSpaceChar = jsTrim l := dropWhile_jsTrim l
  show ((jsTrim l).dropWhile isSpaceChar).rdropWhile isSpaceChar = jsTrim l
  rw [h1, jsTrim, List.rdropWhile_idempotent]

theorem takeWhile_semi_eq_self {l : List Char} (h : l.contains ';' = false) :
    (l.takeWhile fun c => !(c == ';')) = l := by
  rw [List.takeWhile_eq_self_iff]
  intro x hx
  cases hcase : x == ';'
  · rfl
  · exfalso
    rw [beq_iff_eq] at hcase
    subst hcase
    rw [show l.contains ';' = true from by simpa using hx] at h
    exact Bool.noConfusion h

/-- C10: `sanitizeQuery` is idempotent, its output never contains a `--`
line-comment marker or a semicolon, and `null`/non-string input yields the
empty string. -/
theorem c10_sanitizeQuery_idempotent :
    (∀ s : List Char,
      sanitizeQuery (some (sanitizeQuery (some s))) = sanitizeQuery (some s)) ∧
    (∀ s : List Char, containsDashDash (sanitizeQuery (some s)) = false ∧
      (sanitizeQuery (some s)).contains ';' = false) ∧
    sanitizeQuery none = [] := by
  refine ⟨?_, fun s => ⟨sanitize_no_dd s, sanitize_no_semi s⟩, rfl⟩
  intro s
  by_cases ht : (sanitizeQuery (some s)).isEmpty = true
  · rw [List.isEmpty_iff] at ht
    rw [ht]
    rfl
  · have hdd := sanitize_no_dd s
    have hsemi := sanitize_no_semi s
    have htrim : jsTrim (sanitizeQuery (some s)) = sanitizeQuery (some s) := by
      by_cases hse : s.isEmpty = true
      · simp only [sanitizeQuery]
        rw [if_pos hse]
        rfl
      · simp only [sanitizeQuery]
        rw [if_neg hse]
        exact jsTrim_idem _
    generalize hgen : sanitizeQuery (some s) = t at ht hdd hsemi htrim ⊢
    simp only [sanitizeQuery]
    rw [if_neg ht]
    rw [show removeLineComments t = t from removeLCAux_id hdd]
    rw [takeWhile_semi_eq_self hsemi]
    exact htrim

end McpSql
